import Mathlib

/-!
Shallow embedding of the `bamboo_exporter` collector
(`collector/collector.go`) and verification of its specification.

Modelling conventions:
* Go `float64` metric values are modelled as exact rationals (`Rat`);
  `int`/`int64` as unbounded `Int` (wraparound beyond 2^63 is outside
  the model, matching the magnitudes the code is designed for).
* `doRequest` plus the subsequent `json.Unmarshal` are modelled as a
  single upstream response: `none` stands for any fetch or decode error
  (transport error, non-200 status, credential error, malformed JSON),
  since the Go code treats all of those identically (early `return err`).
* A `prometheus.GaugeVec`/`CounterVec` is a finite map from label tuples
  to values, represented as a duplicate-free association list.
* The unbounded Go `for` pagination loop is embedded with explicit
  fuel; termination is proved as a separate theorem.
-/

set_option autoImplicit false

namespace BambooExporter

/-- Label values of a metric child (the `WithLabelValues` arguments). -/
abbrev Labels := List String

/-- Lookup of a label tuple in an association-list metric vector. -/
def lookupLV : List (Labels × Rat) → Labels → Option Rat
  | [], _ => none
  | (k, v) :: rest, ls => if k = ls then some v else lookupLV rest ls

/-- Setting a child's value in a metric vector (map update: the child is
created when absent, overwritten when present). -/
def setLV (l : List (Labels × Rat)) (k : Labels) (v : Rat) : List (Labels × Rat) :=
  (k, v) :: l.filter (fun p => p.1 ≠ k)

/-- Counter increment of a child in a `CounterVec`: `WithLabelValues`
creates the child at 0 when absent, then `Inc` adds one. -/
def incCV (l : List (Labels × Rat)) (k : Labels) : List (Labels × Rat) :=
  match lookupLV l k with
  | some v => setLV l k (v + 1)
  | none => setLV l k 1

/-- Go `unicode.IsSpace` (the white-space set used by `strings.TrimSpace`). -/
def goIsSpace (c : Char) : Bool :=
  c = ' ' ∨ c = '\t' ∨ c = '\n' ∨ c = (Char.ofNat 0x0B) ∨ c = (Char.ofNat 0x0C) ∨
  c = '\r' ∨ c.val = 0x85 ∨ c.val = 0xA0 ∨ c.val = 0x1680 ∨
  (0x2000 ≤ c.val ∧ c.val ≤ 0x200A) ∨ c.val = 0x2028 ∨ c.val = 0x2029 ∨
  c.val = 0x202F ∨ c.val = 0x205F ∨ c.val = 0x3000

/-- Go `strings.TrimSpace` on the character sequence. -/
def trimChars (l : List Char) : List Char :=
  ((l.dropWhile goIsSpace).reverse.dropWhile goIsSpace).reverse

/-- Go `strings.TrimSpace`. -/
def strTrimSpace (s : String) : String := ⟨trimChars s.data⟩

/-- The separator `" - "` used by `parseProjectAndName`. -/
def sepChars : List Char := [' ', '-', ' ']

/-- Whether the character sequence starts with the separator `" - "`. -/
def startsWithSep (l : List Char) : Bool :=
  match l with
  | a :: b :: c :: _ => a = ' ' && b = '-' && c = ' '
  | _ => false

/-- The split performed by Go `strings.SplitN(s, " - ", 2)`: find the
leftmost occurrence of the separator and cut there; `none` when the
separator does not occur. -/
def splitFirstAux : List Char → Option (List Char × List Char)
  | [] => none
  | c :: cs =>
    if startsWithSep (c :: cs) then some ([], cs.drop 2)
    else
      match splitFirstAux cs with
      | some (a, b) => some (c :: a, b)
      | none => none

/-- Go `parseProjectAndName` (collector.go): split the plan name on the
first occurrence of `" - "`; the left part trimmed is the project, the
right part trimmed is the name; without a separator the project is
`"Unknown"` and the name is the trimmed input. -/
def parseProjectAndName (planName : String) : String × String :=
  match splitFirstAux planName.data with
  | some (a, b) => (⟨trimChars a⟩, ⟨trimChars b⟩)
  | none => ("Unknown", strTrimSpace planName)

/-- Go struct `BambooAgent` (decoded agent record). -/
structure BambooAgent where
  id : Int
  name : String
  type : String
  isActive : Bool
  isBusy : Bool
  enabled : Bool
  deriving DecidableEq, Repr

/-- One decoded record of a build-result page (`results.result[i]`). -/
structure BuildResult where
  planName : String
  buildNumber : Int
  state : String
  deriving DecidableEq, Repr

/-- One decoded build-result page (`results` object). -/
structure ResultsPage where
  size : Int
  result : List BuildResult
  deriving DecidableEq, Repr

/-- The upstream Bamboo API as seen through `doRequest` + `json.Unmarshal`:
each field is the decoded response of one endpoint, `none` standing for a
fetch or decode error.  The build-result endpoint is keyed by the
`start-index` and `max-result` query parameters. -/
structure Upstream where
  agentsResp : Option (List BambooAgent)
  queueResp : Option Int
  resultResp : Int → Int → Option ResultsPage

/-- The mutable state of the Go `Exporter` struct: the scrape-failure
counter, every owned gauge/counter and the cross-scrape
`previousQueueSize`. -/
structure ExporterState where
  failures : Nat
  agents : List (Labels × Rat)
  queue : Rat
  utilization : Rat
  queueChange : Rat
  previousQueueSize : Int
  buildSuccess : List (Labels × Rat)
  buildFailure : List (Labels × Rat)
  buildCount : List (Labels × Rat)
  deriving DecidableEq, Repr

/-- The state created by `NewExporter`: zeroed gauges and counters, no
metric children, `previousQueueSize = 0`. -/
def initialState : ExporterState :=
  { failures := 0, agents := [], queue := 0, utilization := 0, queueChange := 0,
    previousQueueSize := 0, buildSuccess := [], buildFailure := [], buildCount := [] }

/-- Go `fmt.Sprintf("%t", b)`. -/
def boolStr (b : Bool) : String := if b then "true" else "false"

/-- The label tuple written for one agent by `scrapeAgents`:
`{id, name, type, enabled, active, busy}`. -/
def agentLabels (a : BambooAgent) : Labels :=
  [toString a.id, a.name, a.type, boolStr a.enabled, boolStr a.isActive, boolStr a.isBusy]

/-- The `for _, agent := range agents` loop of `scrapeAgents`: counts
active and busy agents and writes one sample of value 1 per agent. -/
def agentsLoop : List BambooAgent → Nat → Nat → List (Labels × Rat) →
    Nat × Nat × List (Labels × Rat)
  | [], ac, bc, g => (ac, bc, g)
  | a :: rest, ac, bc, g =>
    agentsLoop rest (if a.isActive then ac + 1 else ac) (if a.isBusy then bc + 1 else bc)
      (setLV g (agentLabels a) 1)

/-- Go `scrapeAgents`: on success, reset the agent gauge vector, repopulate
it from the fresh list, and set the utilization gauge to busy/active when
the active count is positive.  The boolean is `false` exactly on the error
paths, which occur before any mutation. -/
def scrapeAgents (resp : Option (List BambooAgent)) (s : ExporterState) :
    ExporterState × Bool :=
  match resp with
  | none => (s, false)
  | some ags =>
    let r := agentsLoop ags 0 0 []
    let s := { s with agents := r.2.2 }
    let s := if 0 < r.1 then { s with utilization := (r.2.1 : Rat) / (r.1 : Rat) } else s
    (s, true)

/-- Go `scrapeQueue`: on success set the queue gauge, the queue-change
gauge (current minus previous) and persist the new previous size.  The
error paths occur before any mutation. -/
def scrapeQueue (resp : Option Int) (s : ExporterState) : ExporterState × Bool :=
  match resp with
  | none => (s, false)
  | some sz =>
    ({ s with queue := (sz : Rat),
              queueChange := ((sz - s.previousQueueSize : Int) : Rat),
              previousQueueSize := sz }, true)

/-- The label pair of a build-result record. -/
def labelsOf (r : BuildResult) : Labels :=
  [(parseProjectAndName r.planName).1, (parseProjectAndName r.planName).2]

/-- The per-record body of the `for _, r := range response.Results.Result`
loop in `scrapeBuildResults`: increment the success counter when the state
is `"Successful"`, otherwise the failure counter, and set the build-count
gauge to the record's build number. -/
def processRecord (s : ExporterState) (r : BuildResult) : ExporterState :=
  let labels := labelsOf r
  let s :=
    if r.state = "Successful" then { s with buildSuccess := incCV s.buildSuccess labels }
    else { s with buildFailure := incCV s.buildFailure labels }
  { s with buildCount := setLV s.buildCount labels (r.buildNumber : Rat) }

/-- The fixed `max-result` query parameter of `scrapeBuildResults`. -/
def maxResult : Int := 100

/-- The unbounded `for` pagination loop of `scrapeBuildResults`,
embedded with fuel (`none` = fuel exhausted, never reached with enough
fuel).  Returns the state (with all mutations performed so far, also on
error), an ok flag (`false` on a fetch/decode error), and the trace of
`start-index` values requested. -/
def buildLoop (fetch : Int → Int → Option ResultsPage) :
    Nat → Int → Int → ExporterState → List Int →
    Option (ExporterState × Bool × List Int)
  | 0, _, _, _, _ => none
  | fuel + 1, ci, ts, s, tr =>
    match fetch ci maxResult with
    | none => some (s, false, tr ++ [ci])
    | some page =>
      let ts' := if ts = 0 then page.size else ts
      let s' := page.result.foldl processRecord s
      let fc : Int := ci + page.result.length
      if ts' ≤ fc ∨ page.result.length = 0 then some (s', true, tr ++ [ci])
      else buildLoop fetch fuel fc ts' s' (tr ++ [ci])

/-- Go `scrapeBuildResults`: paginate from start-index 0 with the latched
total size starting at 0. -/
def scrapeBuildResults (fetch : Int → Int → Option ResultsPage) (fuel : Nat)
    (s : ExporterState) : Option (ExporterState × Bool × List Int) :=
  buildLoop fetch fuel 0 0 s []

/-- Go `scrapeMetrics`: run the three sub-steps in order, short-circuiting
on the first error, incrementing the failure counter and returning 0 on
any error, 1 on full success.  `none` only when the pagination fuel runs
out (a model artefact, see the termination theorem). -/
def scrapeMetrics (up : Upstream) (fuel : Nat) (s : ExporterState) :
    Option (Rat × ExporterState) :=
  let r1 := scrapeAgents up.agentsResp s
  if r1.2 = false then some (0, { r1.1 with failures := r1.1.failures + 1 })
  else
    let r2 := scrapeQueue up.queueResp r1.1
    if r2.2 = false then some (0, { r2.1 with failures := r2.1.failures + 1 })
    else
      match scrapeBuildResults up.resultResp fuel r2.1 with
      | none => none
      | some (s3, ok, _) =>
        if ok then some (1, s3)
        else some (0, { s3 with failures := s3.failures + 1 })

/-- The sample set emitted by one `Collect` call: the freshly computed
`up` sample followed by the current value of every owned metric. -/
structure CollectOutput where
  up : Rat
  failures : Nat
  agents : List (Labels × Rat)
  queue : Rat
  utilization : Rat
  queueChange : Rat
  buildSuccess : List (Labels × Rat)
  buildFailure : List (Labels × Rat)
  buildCount : List (Labels × Rat)
  deriving DecidableEq, Repr

/-- The samples Collect sends on the channel, given the up value and the
post-scrape state. -/
def outputOf (v : Rat) (t : ExporterState) : CollectOutput :=
  { up := v, failures := t.failures, agents := t.agents, queue := t.queue,
    utilization := t.utilization, queueChange := t.queueChange,
    buildSuccess := t.buildSuccess, buildFailure := t.buildFailure,
    buildCount := t.buildCount }

/-- Go `Collect` (the registry-facing scrape entry point, minus the mutex,
which serializes concurrent calls): run `scrapeMetrics` and emit the up
sample plus every metric's current samples. -/
def Collect (up : Upstream) (fuel : Nat) (s : ExporterState) :
    Option (CollectOutput × ExporterState) :=
  (scrapeMetrics up fuel s).map (fun r => (outputOf r.1 r.2, r.2))

/-! ### Association-list (metric vector) lemmas -/

theorem lookupLV_filter_ne (l : List (Labels × Rat)) (k k' : Labels) :
    lookupLV (l.filter (fun p => p.1 ≠ k)) k' =
      if k' = k then none else lookupLV l k' := by
  induction l with
  | nil => simp [lookupLV]
  | cons p rest ih =>
    simp only [List.filter_cons]
    by_cases hp : p.1 = k
    · rw [if_neg (by simp [hp]), ih]
      simp only [lookupLV]
      by_cases hk : k' = k
      · simp [hk]
      · rw [if_neg hk, if_neg hk, if_neg (fun h => hk (h.symm.trans hp))]
    · rw [if_pos (by simp [hp])]
      simp only [lookupLV]
      by_cases hpk : p.1 = k'
      · rw [if_pos hpk, if_pos hpk, if_neg (fun h => hp (hpk.trans h))]
      · rw [if_neg hpk, if_neg hpk, ih]

theorem lookupLV_setLV (l : List (Labels × Rat)) (k k' : Labels) (v : Rat) :
    lookupLV (setLV l k v) k' = if k' = k then some v else lookupLV l k' := by
  unfold setLV
  simp only [lookupLV]
  by_cases hk : k' = k
  · rw [if_pos hk.symm, if_pos hk]
  · rw [if_neg (fun h => hk h.symm), if_neg hk, lookupLV_filter_ne, if_neg hk]

theorem lookupLV_incCV (l : List (Labels × Rat)) (k k' : Labels) :
    lookupLV (incCV l k) k' =
      if k' = k then some ((lookupLV l k).getD 0 + 1) else lookupLV l k' := by
  unfold incCV
  cases h : lookupLV l k with
  | none => rw [lookupLV_setLV]; simp [h]
  | some v => rw [lookupLV_setLV]; simp [h]

/-! ### scrapeAgents lemmas -/

theorem agentsLoop_active (ags : List BambooAgent) :
    ∀ ac bc g, (agentsLoop ags ac bc g).1 = ac + ags.countP (fun a => a.isActive) := by
  induction ags with
  | nil => intro ac bc g; simp [agentsLoop]
  | cons a rest ih =>
    intro ac bc g
    simp only [agentsLoop, ih, List.countP_cons]
    by_cases ha : a.isActive
    · simp [ha]; omega
    · simp [ha]

theorem agentsLoop_busy (ags : List BambooAgent) :
    ∀ ac bc g, (agentsLoop ags ac bc g).2.1 = bc + ags.countP (fun a => a.isBusy) := by
  induction ags with
  | nil => intro ac bc g; simp [agentsLoop]
  | cons a rest ih =>
    intro ac bc g
    simp only [agentsLoop, ih, List.countP_cons]
    by_cases ha : a.isBusy
    · simp [ha]; omega
    · simp [ha]

theorem agentsLoop_lookup (ags : List BambooAgent) :
    ∀ ac bc g ls, lookupLV (agentsLoop ags ac bc g).2.2 ls =
      if ls ∈ ags.map agentLabels then some 1 else lookupLV g ls := by
  induction ags with
  | nil => intro ac bc g ls; simp [agentsLoop]
  | cons a rest ih =>
    intro ac bc g ls
    simp only [agentsLoop, ih, List.map_cons, List.mem_cons, lookupLV_setLV]
    by_cases hm : ls ∈ rest.map agentLabels
    · simp [hm]
    · by_cases he : ls = agentLabels a
      · simp [hm, he]
      · simp [hm, he]

theorem scrapeAgents_some_snd (ags : List BambooAgent) (s : ExporterState) :
    (scrapeAgents (some ags) s).2 = true := by
  simp [scrapeAgents]

/-- Fields of the exporter state that `scrapeAgents` never writes. -/
theorem scrapeAgents_frame (ags : List BambooAgent) (s : ExporterState) :
    (scrapeAgents (some ags) s).1.failures = s.failures ∧
    (scrapeAgents (some ags) s).1.queue = s.queue ∧
    (scrapeAgents (some ags) s).1.queueChange = s.queueChange ∧
    (scrapeAgents (some ags) s).1.previousQueueSize = s.previousQueueSize ∧
    (scrapeAgents (some ags) s).1.buildSuccess = s.buildSuccess ∧
    (scrapeAgents (some ags) s).1.buildFailure = s.buildFailure ∧
    (scrapeAgents (some ags) s).1.buildCount = s.buildCount := by
  simp only [scrapeAgents]
  split <;> simp_all

/-! ### Build-result processing lemmas -/

/-- Number of records of a list that are successful and carry the label
pair `L` (specification-level count). -/
def succCount (rs : List BuildResult) (L : Labels) : Nat :=
  rs.countP (fun r => decide (r.state = "Successful" ∧ labelsOf r = L))

/-- Number of records of a list that are unsuccessful and carry the label
pair `L`. -/
def failCount (rs : List BuildResult) (L : Labels) : Nat :=
  rs.countP (fun r => decide (¬ r.state = "Successful" ∧ labelsOf r = L))

/-- The build number of the last record of the list carrying label pair
`L`, if any. -/
def lastNum (rs : List BuildResult) (L : Labels) : Option Int :=
  rs.foldl (fun acc r => if labelsOf r = L then some r.buildNumber else acc) none

/-- Adding `c` increments to a counter child's value (`none` = child not
yet created; a first increment creates it at 0). -/
def addCnt (o : Option Rat) (c : Nat) : Option Rat :=
  if c = 0 then o else some (o.getD 0 + (c : Rat))

theorem addCnt_addCnt (o : Option Rat) (c1 c2 : Nat) :
    addCnt (addCnt o c1) c2 = addCnt o (c1 + c2) := by
  unfold addCnt
  by_cases h1 : c1 = 0
  · simp [h1]
  · by_cases h2 : c2 = 0
    · simp [h1, h2]
    · rw [if_neg h2, if_neg h1, if_neg (by omega)]
      simp only [Option.getD_some]
      push_cast
      ring_nf

theorem processRecord_buildSuccess (s : ExporterState) (r : BuildResult) (L : Labels) :
    lookupLV (processRecord s r).buildSuccess L =
      addCnt (lookupLV s.buildSuccess L)
        (if r.state = "Successful" ∧ labelsOf r = L then 1 else 0) := by
  by_cases hs : r.state = "Successful"
  · by_cases hL : labelsOf r = L
    · simp [processRecord, addCnt, lookupLV_incCV, hs, hL]
    · have hL' : ¬ L = labelsOf r := fun h => hL h.symm
      simp [processRecord, addCnt, lookupLV_incCV, hs, hL, hL']
  · simp [processRecord, addCnt, hs]

theorem processRecord_buildFailure (s : ExporterState) (r : BuildResult) (L : Labels) :
    lookupLV (processRecord s r).buildFailure L =
      addCnt (lookupLV s.buildFailure L)
        (if ¬ r.state = "Successful" ∧ labelsOf r = L then 1 else 0) := by
  by_cases hs : r.state = "Successful"
  · simp [processRecord, addCnt, hs]
  · by_cases hL : labelsOf r = L
    · simp [processRecord, addCnt, lookupLV_incCV, hs, hL]
    · have hL' : ¬ L = labelsOf r := fun h => hL h.symm
      simp [processRecord, addCnt, lookupLV_incCV, hs, hL, hL']

theorem processRecord_buildCount (s : ExporterState) (r : BuildResult) (L : Labels) :
    lookupLV (processRecord s r).buildCount L =
      if labelsOf r = L then some (r.buildNumber : Rat)
      else lookupLV s.buildCount L := by
  by_cases hL : labelsOf r = L
  · by_cases hs : r.state = "Successful" <;>
      simp [processRecord, lookupLV_setLV, hs, hL]
  · have hL' : ¬ L = labelsOf r := fun h => hL h.symm
    by_cases hs : r.state = "Successful" <;>
      simp [processRecord, lookupLV_setLV, hs, hL, hL']

theorem foldl_buildSuccess (rs : List BuildResult) (L : Labels) :
    ∀ s : ExporterState,
      lookupLV (rs.foldl processRecord s).buildSuccess L =
        addCnt (lookupLV s.buildSuccess L) (succCount rs L) := by
  induction rs with
  | nil => intro s; simp [succCount, addCnt]
  | cons r rest ih =>
    intro s
    rw [List.foldl_cons, ih, processRecord_buildSuccess, addCnt_addCnt]
    congr 1
    unfold succCount
    rw [List.countP_cons]
    by_cases h : r.state = "Successful" ∧ labelsOf r = L
    · simp [h]; omega
    · simp [h]

theorem foldl_buildFailure (rs : List BuildResult) (L : Labels) :
    ∀ s : ExporterState,
      lookupLV (rs.foldl processRecord s).buildFailure L =
        addCnt (lookupLV s.buildFailure L) (failCount rs L) := by
  induction rs with
  | nil => intro s; simp [failCount, addCnt]
  | cons r rest ih =>
    intro s
    rw [List.foldl_cons, ih, processRecord_buildFailure, addCnt_addCnt]
    congr 1
    unfold failCount
    rw [List.countP_cons]
    by_cases h : ¬ r.state = "Successful" ∧ labelsOf r = L
    · simp [h]; omega
    · simp [h]

theorem lastNum_acc (rs : List BuildResult) (L : Labels) :
    ∀ acc : Option Int,
      rs.foldl (fun acc r => if labelsOf r = L then some r.buildNumber else acc) acc =
        (lastNum rs L).elim acc some := by
  induction rs with
  | nil => intro acc; simp [lastNum]
  | cons r rest ih =>
    intro acc
    show List.foldl (fun acc r => if labelsOf r = L then some r.buildNumber else acc)
        (if labelsOf r = L then some r.buildNumber else acc) rest =
      (List.foldl (fun acc r => if labelsOf r = L then some r.buildNumber else acc)
        (if labelsOf r = L then some r.buildNumber else none) rest).elim acc some
    rw [ih, ih]
    rcases hln : lastNum rest L with _ | n
    · simp only [hln, Option.elim_none]
      by_cases hL : labelsOf r = L <;> simp [hL]
    · simp [hln]

theorem foldl_buildCount (rs : List BuildResult) (L : Labels) :
    ∀ s : ExporterState,
      lookupLV (rs.foldl processRecord s).buildCount L =
        (lastNum rs L).elim (lookupLV s.buildCount L) (fun n => some (n : Rat)) := by
  induction rs with
  | nil => intro s; simp [lastNum]
  | cons r rest ih =>
    intro s
    rw [List.foldl_cons, ih, processRecord_buildCount]
    have hcons : lastNum (r :: rest) L =
        (lastNum rest L).elim (if labelsOf r = L then some r.buildNumber else none) some := by
      show List.foldl (fun acc r => if labelsOf r = L then some r.buildNumber else acc)
          (if labelsOf r = L then some r.buildNumber else none) rest = _
      rw [lastNum_acc]
    rw [hcons]
    rcases hln : lastNum rest L with _ | n
    · simp only [hln, Option.elim_none]
      by_cases hL : labelsOf r = L <;> simp [hL]
    · simp [hln]

/-- The record-processing loop never writes the non-build fields. -/
theorem foldl_processRecord_frame (rs : List BuildResult) :
    ∀ s : ExporterState,
      (rs.foldl processRecord s).failures = s.failures ∧
      (rs.foldl processRecord s).agents = s.agents ∧
      (rs.foldl processRecord s).queue = s.queue ∧
      (rs.foldl processRecord s).utilization = s.utilization ∧
      (rs.foldl processRecord s).queueChange = s.queueChange ∧
      (rs.foldl processRecord s).previousQueueSize = s.previousQueueSize := by
  induction rs with
  | nil => intro s; simp
  | cons r rest ih =>
    intro s
    rw [List.foldl_cons]
    have h := ih (processRecord s r)
    have hr : (processRecord s r).failures = s.failures ∧
        (processRecord s r).agents = s.agents ∧
        (processRecord s r).queue = s.queue ∧
        (processRecord s r).utilization = s.utilization ∧
        (processRecord s r).queueChange = s.queueChange ∧
        (processRecord s r).previousQueueSize = s.previousQueueSize := by
      unfold processRecord
      by_cases hs : r.state = "Successful" <;> simp [hs]
    exact ⟨h.1.trans hr.1, h.2.1.trans hr.2.1, h.2.2.1.trans hr.2.2.1,
      h.2.2.2.1.trans hr.2.2.2.1, h.2.2.2.2.1.trans hr.2.2.2.2.1,
      h.2.2.2.2.2.trans hr.2.2.2.2.2⟩

/-! ### Pagination-loop lemmas -/

/-- With fuel at least the remaining record count plus one, the pagination
loop completes (it never exhausts its fuel). -/
theorem buildLoop_isSome (fetch : Int → Int → Option ResultsPage) :
    ∀ (n : Nat) (ci ts : Int) (s : ExporterState) (tr : List Int),
      0 < ci → ci < ts → ts.toNat ≤ ci.toNat + n →
      (buildLoop fetch (n + 1) ci ts s tr).isSome = true := by
  intro n
  induction n with
  | zero => intro ci ts s tr hci hlt hle; omega
  | succ n ih =>
    intro ci ts s tr hci hlt hle
    rw [buildLoop]
    cases hf : fetch ci maxResult with
    | none => simp
    | some page =>
      simp only
      have hts : ¬ ts = 0 := by omega
      rw [if_neg hts]
      by_cases hbrk : ts ≤ ci + (page.result.length : Int) ∨ page.result.length = 0
      · rw [if_pos hbrk]; simp
      · rw [if_neg hbrk]
        push_neg at hbrk
        exact ih (ci + (page.result.length : Int)) ts _ _ (by omega) hbrk.1 (by omega)

/-- Extra fuel does not change the result of a completed pagination loop. -/
theorem buildLoop_fuel_add (fetch : Int → Int → Option ResultsPage) :
    ∀ (f g : Nat) (ci ts : Int) (s : ExporterState) (tr : List Int),
      (buildLoop fetch f ci ts s tr).isSome = true →
      buildLoop fetch (f + g) ci ts s tr = buildLoop fetch f ci ts s tr := by
  intro f
  induction f with
  | zero => intro g ci ts s tr h; simp [buildLoop] at h
  | succ f ih =>
    intro g ci ts s tr h
    have hshift : f + 1 + g = (f + g) + 1 := by omega
    rw [hshift, buildLoop, buildLoop]
    rw [buildLoop] at h
    cases hf : fetch ci maxResult with
    | none => simp
    | some page =>
      simp only
      rw [hf] at h
      simp only at h
      by_cases hbrk : (if ts = 0 then page.size else ts) ≤ ci + (page.result.length : Int) ∨
          page.result.length = 0
      · rw [if_pos hbrk, if_pos hbrk]
      · rw [if_neg hbrk, if_neg hbrk]
        rw [if_neg hbrk] at h
        exact ih g _ _ _ _ h

/-- The pagination loop never writes the non-build fields of the state. -/
theorem buildLoop_frame (fetch : Int → Int → Option ResultsPage) :
    ∀ (f : Nat) (ci ts : Int) (s : ExporterState) (tr : List Int)
      (s3 : ExporterState) (ok : Bool) (tr3 : List Int),
      buildLoop fetch f ci ts s tr = some (s3, ok, tr3) →
      s3.failures = s.failures ∧ s3.agents = s.agents ∧ s3.queue = s.queue ∧
      s3.utilization = s.utilization ∧ s3.queueChange = s.queueChange ∧
      s3.previousQueueSize = s.previousQueueSize := by
  intro f
  induction f with
  | zero => intro ci ts s tr s3 ok tr3 h; simp [buildLoop] at h
  | succ f ih =>
    intro ci ts s tr s3 ok tr3 h
    rw [buildLoop] at h
    cases hf : fetch ci maxResult with
    | none =>
      rw [hf] at h
      simp only [Option.some.injEq, Prod.mk.injEq] at h
      rw [← h.1]
      exact ⟨rfl, rfl, rfl, rfl, rfl, rfl⟩
    | some page =>
      rw [hf] at h
      simp only at h
      by_cases hbrk : (if ts = 0 then page.size else ts) ≤ ci + (page.result.length : Int) ∨
          page.result.length = 0
      · rw [if_pos hbrk] at h
        simp only [Option.some.injEq, Prod.mk.injEq] at h
        have hfr := foldl_processRecord_frame page.result s
        rw [← h.1]
        exact hfr
      · rw [if_neg hbrk] at h
        have hrec := ih _ _ _ _ _ _ _ h
        have hfr := foldl_processRecord_frame page.result s
        exact ⟨hrec.1.trans hfr.1, hrec.2.1.trans hfr.2.1, hrec.2.2.1.trans hfr.2.2.1,
          hrec.2.2.2.1.trans hfr.2.2.2.1, hrec.2.2.2.2.1.trans hfr.2.2.2.2.1,
          hrec.2.2.2.2.2.trans hfr.2.2.2.2.2⟩

/-- Once the total size is latched positive, the loop's behaviour depends
only on the record lists of the pages, not on their size fields. -/
theorem buildLoop_size_irrelevant (fetch fetch' : Int → Int → Option ResultsPage)
    (hrest : ∀ i, i ≠ 0 → (fetch i maxResult).map ResultsPage.result
                        = (fetch' i maxResult).map ResultsPage.result) :
    ∀ (f : Nat) (ci ts : Int) (s : ExporterState) (tr : List Int),
      0 < ci → 0 < ts →
      buildLoop fetch f ci ts s tr = buildLoop fetch' f ci ts s tr := by
  intro f
  induction f with
  | zero => intro ci ts s tr hci hts; rfl
  | succ f ih =>
    intro ci ts s tr hci hts
    rw [buildLoop, buildLoop]
    have hmap := hrest ci (by omega)
    cases hf : fetch ci maxResult with
    | none =>
      rw [hf] at hmap
      cases hf' : fetch' ci maxResult with
      | none => rfl
      | some page' => rw [hf'] at hmap; simp at hmap
    | some page =>
      rw [hf] at hmap
      cases hf' : fetch' ci maxResult with
      | none => rw [hf'] at hmap; simp at hmap
      | some page' =>
        rw [hf'] at hmap
        simp only [Option.map_some', Option.some.injEq] at hmap
        simp only
        rw [if_neg (by omega : ¬ ts = 0), if_neg (by omega : ¬ ts = 0), hmap]
        by_cases hbrk : ts ≤ ci + (page'.result.length : Int) ∨ page'.result.length = 0
        · rw [if_pos hbrk, if_pos hbrk]
        · rw [if_neg hbrk, if_neg hbrk]
          push_neg at hbrk
          exact ih _ _ _ _ (by omega) (by omega)

/-! ### Separator-split lemmas -/

theorem startsWithSep_shape (l : List Char) (h : startsWithSep l = true) :
    l = sepChars ++ l.drop 3 := by
  match l with
  | [] => simp [startsWithSep] at h
  | [x] => simp [startsWithSep] at h
  | [x, y] => simp [startsWithSep] at h
  | x :: y :: z :: rest =>
    simp only [startsWithSep, Bool.and_eq_true, decide_eq_true_eq] at h
    obtain ⟨⟨h1, h2⟩, h3⟩ := h
    subst h1; subst h2; subst h3
    rfl

theorem startsWithSep_append (l m : List Char) (h : 3 ≤ l.length) :
    startsWithSep (l ++ m) = startsWithSep l := by
  match l with
  | x :: y :: z :: rest => rfl
  | [] => simp at h
  | [x] => simp at h
  | [x, y] => simp at h

/-- Soundness of the split: a successful split is a decomposition of the
input at an occurrence of the separator. -/
theorem splitFirstAux_sound :
    ∀ (l a b : List Char), splitFirstAux l = some (a, b) → l = a ++ sepChars ++ b := by
  intro l
  induction l with
  | nil => intro a b h; simp [splitFirstAux] at h
  | cons c cs ih =>
    intro a b h
    rw [splitFirstAux] at h
    by_cases hsw : startsWithSep (c :: cs)
    · rw [if_pos hsw] at h
      simp only [Option.some.injEq, Prod.mk.injEq] at h
      have hshape := startsWithSep_shape (c :: cs) hsw
      rw [← h.1, ← h.2]
      simpa using hshape
    · rw [if_neg hsw] at h
      cases hrec : splitFirstAux cs with
      | none => rw [hrec] at h; simp at h
      | some p =>
        rw [hrec] at h
        cases p with
        | mk a0 b0 =>
          simp only [Option.some.injEq, Prod.mk.injEq] at h
          have := ih a0 b0 hrec
          rw [← h.1, ← h.2]
          simp [this]

/-- Completeness: at any decomposition along the separator the split
succeeds. -/
theorem splitFirstAux_append_isSome :
    ∀ (a b : List Char), (splitFirstAux (a ++ sepChars ++ b)).isSome = true := by
  intro a
  induction a with
  | nil =>
    intro b
    simp only [List.nil_append, sepChars, List.cons_append]
    rw [splitFirstAux]
    rw [if_pos (by simp [startsWithSep])]
    simp
  | cons c a0 ih =>
    intro b
    rw [List.cons_append, List.cons_append, splitFirstAux]
    by_cases hsw : startsWithSep (c :: (a0 ++ sepChars ++ b))
    · rw [if_pos hsw]; simp
    · rw [if_neg hsw]
      have := ih b
      cases hrec : splitFirstAux (a0 ++ sepChars ++ b) with
      | none => rw [hrec] at this; simp at this
      | some p => cases p with | mk x y => simp

/-- Leftmost property: when no occurrence of the separator starts strictly
before position `a.length` (expressed as: the split of `a ++ " -"` fails),
the split of `a ++ " - " ++ b` cuts exactly at the boundary. -/
theorem splitFirstAux_leftmost :
    ∀ (a b : List Char), splitFirstAux (a ++ [' ', '-']) = none →
      splitFirstAux (a ++ sepChars ++ b) = some (a, b) := by
  intro a
  induction a with
  | nil =>
    intro b hnone
    simp only [List.nil_append, sepChars, List.cons_append]
    rw [splitFirstAux]
    rw [if_pos (by simp [startsWithSep])]
    rfl
  | cons c a0 ih =>
    intro b hnone
    rw [List.cons_append] at hnone
    rw [splitFirstAux] at hnone
    have hlen : 3 ≤ (c :: (a0 ++ [' ', '-'])).length := by simp
    have hfull : (c :: (a0 ++ [' ', '-'])) ++ (' ' :: b) = c :: (a0 ++ sepChars ++ b) := by
      simp [sepChars]
    by_cases hsw : startsWithSep (c :: (a0 ++ [' ', '-']))
    · rw [if_pos hsw] at hnone; simp at hnone
    · rw [if_neg hsw] at hnone
      have hrec : splitFirstAux (a0 ++ [' ', '-']) = none := by
        cases hx : splitFirstAux (a0 ++ [' ', '-']) with
        | none => rfl
        | some p =>
          cases p with
          | mk x y => rw [hx] at hnone; simp at hnone
      have hsw2 : ¬ startsWithSep (c :: (a0 ++ sepChars ++ b)) = true := by
        rw [← hfull, startsWithSep_append _ _ hlen]
        exact hsw
      rw [List.cons_append, List.cons_append, splitFirstAux, if_neg hsw2]
      rw [ih b hrec]

/-! ### Claim theorems -/

/-- C4: for every plan-name string containing the separator `" - "`,
`parseProjectAndName` returns project = the text before the first
occurrence with surrounding whitespace trimmed, and name = the remainder
after that first occurrence trimmed (later occurrences stay inside the
name); for every string not containing `" - "`, it returns project
`"Unknown"` and name = the trimmed input.  The function is a total Lean
function, hence deterministic.  A decomposition `s.data = a ++ " - " ++ b`
is at the FIRST occurrence exactly when no occurrence starts inside
`a ++ " -"`, i.e. when `splitFirstAux (a ++ [' ', '-']) = none`. -/
theorem C4_parse_project_and_name (s : String) :
    (∀ a b : List Char, s.data = a ++ sepChars ++ b →
        splitFirstAux (a ++ [' ', '-']) = none →
        parseProjectAndName s = (⟨trimChars a⟩, ⟨trimChars b⟩))
    ∧ ((∀ a b : List Char, s.data ≠ a ++ sepChars ++ b) →
        parseProjectAndName s = ("Unknown", strTrimSpace s)) := by
  constructor
  · intro a b hdec hfirst
    unfold parseProjectAndName
    rw [hdec, splitFirstAux_leftmost a b hfirst]
  · intro h
    unfold parseProjectAndName
    cases hx : splitFirstAux s.data with
    | none => rfl
    | some p =>
      cases p with
      | mk a b => exact absurd (splitFirstAux_sound s.data a b hx) (h a b)

/-- Witness for C4 at the spec's own examples: a plan name with one
separator (and a second separator inside the name part), and a plan name
without any separator. -/
theorem C4_parse_project_and_name_witness :
    parseProjectAndName "XXXX Releases - PB-XXXX-21.2" = ("XXXX Releases", "PB-XXXX-21.2")
    ∧ parseProjectAndName "NoSeparatorHere" = ("Unknown", "NoSeparatorHere") := by
  constructor
  · have h := (C4_parse_project_and_name "XXXX Releases - PB-XXXX-21.2").1
      "XXXX Releases".data "PB-XXXX-21.2".data (by decide) (by decide)
    rw [h]
    decide
  · have h := (C4_parse_project_and_name "NoSeparatorHere").2 (by
      intro a b hab
      have hs := splitFirstAux_append_isSome a b
      rw [← hab] at hs
      have hnone : splitFirstAux "NoSeparatorHere".data = none := by decide
      rw [hnone] at hs
      simp at hs)
    rw [h]
    decide

/-- C5: after every successful scrapeAgents call over an agent list with
active count a and busy count b, the utilization gauge equals b / a when
a > 0, and keeps its previous value when a = 0. -/
theorem C5_utilization (ags : List BambooAgent) (s : ExporterState) :
    (scrapeAgents (some ags) s).2 = true
    ∧ (0 < ags.countP (fun a => a.isActive) →
        (scrapeAgents (some ags) s).1.utilization =
          (ags.countP (fun a => a.isBusy) : Rat) / (ags.countP (fun a => a.isActive) : Rat))
    ∧ (ags.countP (fun a => a.isActive) = 0 →
        (scrapeAgents (some ags) s).1.utilization = s.utilization) := by
  have hac : (agentsLoop ags 0 0 []).1 = ags.countP (fun a => a.isActive) := by
    rw [agentsLoop_active]
    simp
  have hbc : (agentsLoop ags 0 0 []).2.1 = ags.countP (fun a => a.isBusy) := by
    rw [agentsLoop_busy]
    simp
  refine ⟨scrapeAgents_some_snd ags s, ?_, ?_⟩
  · intro hpos
    simp only [scrapeAgents]
    rw [if_pos (hac ▸ hpos)]
    simp [hac, hbc]
  · intro hzero
    simp only [scrapeAgents]
    rw [if_neg (by rw [hac, hzero]; exact lt_irrefl 0)]

/-- Witness for C5: four active agents of which one is busy yield
utilization 1/4; an empty agent list (active count 0) leaves the
utilization gauge at its previous value. -/
theorem C5_utilization_witness :
    (scrapeAgents (some
        [⟨1, "a1", "t", true, true, true⟩, ⟨2, "a2", "t", true, false, true⟩,
         ⟨3, "a3", "t", true, false, true⟩, ⟨4, "a4", "t", true, false, true⟩])
      initialState).1.utilization = (1 : Rat) / (4 : Rat)
    ∧ (scrapeAgents (some [])
        { initialState with utilization := (7 : Rat) }).1.utilization = (7 : Rat) := by
  constructor
  · have h := (C5_utilization
        [⟨1, "a1", "t", true, true, true⟩, ⟨2, "a2", "t", true, false, true⟩,
         ⟨3, "a3", "t", true, false, true⟩, ⟨4, "a4", "t", true, false, true⟩]
        initialState).2.1 (by decide)
    rw [h]
    have h1 : List.countP (fun a => a.isBusy)
        [⟨1, "a1", "t", true, true, true⟩, ⟨2, "a2", "t", true, false, true⟩,
         ⟨3, "a3", "t", true, false, true⟩,
         (⟨4, "a4", "t", true, false, true⟩ : BambooAgent)] = 1 := by decide
    have h4 : List.countP (fun a => a.isActive)
        [⟨1, "a1", "t", true, true, true⟩, ⟨2, "a2", "t", true, false, true⟩,
         ⟨3, "a3", "t", true, false, true⟩,
         (⟨4, "a4", "t", true, false, true⟩ : BambooAgent)] = 4 := by decide
    rw [h1, h4]
    norm_num
  · exact (C5_utilization [] { initialState with utilization := (7 : Rat) }).2.2 (by decide)

/-- C6: after every successful scrapeQueue call observing size s, the
queue gauge equals s, the queue-change gauge equals s minus the previous
size, and previousQueueSize is updated to s; initially previousQueueSize
is 0, a first scrape of size 5 yields change 5, a second of size 3 yields
change -2 and previousQueueSize 3. -/
theorem C6_queue_change (s : ExporterState) :
    (∀ sz : Int,
      (scrapeQueue (some sz) s).2 = true ∧
      (scrapeQueue (some sz) s).1.queue = (sz : Rat) ∧
      (scrapeQueue (some sz) s).1.queueChange = ((sz - s.previousQueueSize : Int) : Rat) ∧
      (scrapeQueue (some sz) s).1.previousQueueSize = sz)
    ∧ initialState.previousQueueSize = 0
    ∧ (scrapeQueue (some 5) initialState).1.queueChange = (5 : Rat)
    ∧ (scrapeQueue (some 5) initialState).1.previousQueueSize = 5
    ∧ (scrapeQueue (some 3) (scrapeQueue (some 5) initialState).1).1.queueChange = (-2 : Rat)
    ∧ (scrapeQueue (some 3) (scrapeQueue (some 5) initialState).1).1.previousQueueSize = 3 := by
  refine ⟨fun sz => ⟨rfl, rfl, rfl, rfl⟩, rfl, by decide, by decide, by decide, by decide⟩

/-- C7: after every successful scrapeAgents call the agent-status gauge
vector holds exactly one sample of value 1 per label tuple of the fresh
agent list and nothing else — in particular no sample surviving from any
earlier scrape (an agent absent from the new list has no sample). -/
theorem C7_agent_status_replaced (ags : List BambooAgent) (s : ExporterState) (ls : Labels) :
    lookupLV ((scrapeAgents (some ags) s).1).agents ls =
      (if ls ∈ ags.map agentLabels then some 1 else none)
    ∧ (scrapeAgents (some ags) s).2 = true := by
  refine ⟨?_, scrapeAgents_some_snd ags s⟩
  have hagents : ((scrapeAgents (some ags) s).1).agents = (agentsLoop ags 0 0 []).2.2 := by
    simp only [scrapeAgents]
    split
    · rfl
    · rfl
  rw [hagents, agentsLoop_lookup]
  simp [lookupLV]

/-- C10: whenever scrapeQueue fails (fetch or decode error, both modelled
by a `none` response since both Go error returns precede every write), the
queue gauge, the queue-change gauge and previousQueueSize are all
unchanged; on success all three are written. -/
theorem C10_queue_error_atomic (s : ExporterState) :
    scrapeQueue none s = (s, false)
    ∧ ∀ sz : Int,
        (scrapeQueue (some sz) s).2 = true ∧
        (scrapeQueue (some sz) s).1.queue = (sz : Rat) ∧
        (scrapeQueue (some sz) s).1.queueChange = ((sz - s.previousQueueSize : Int) : Rat) ∧
        (scrapeQueue (some sz) s).1.previousQueueSize = sz := by
  exact ⟨rfl, fun sz => ⟨rfl, rfl, rfl, rfl⟩⟩

/-- Fuel that always suffices for the pagination loop: one call when the
first fetch fails, and at most the reported total size of further
iterations otherwise. -/
def enoughFuel (fetch : Int → Int → Option ResultsPage) : Nat :=
  match fetch 0 maxResult with
  | none => 1
  | some p => p.size.toNat + 2

/-- The pagination loop completes within `enoughFuel` steps. -/
theorem scrapeBuildResults_enough (fetch : Int → Int → Option ResultsPage)
    (s : ExporterState) :
    (scrapeBuildResults fetch (enoughFuel fetch) s).isSome = true := by
  unfold scrapeBuildResults enoughFuel
  cases hf : fetch 0 maxResult with
  | none =>
    show (buildLoop fetch (0 + 1) 0 0 s []).isSome = true
    rw [buildLoop, hf]
    simp
  | some p =>
    show (buildLoop fetch ((p.size.toNat + 1) + 1) 0 0 s []).isSome = true
    rw [buildLoop, hf]
    simp only [if_true]
    by_cases hbrk : p.size ≤ 0 + (p.result.length : Int) ∨ p.result.length = 0
    · rw [if_pos hbrk]
      simp
    · rw [if_neg hbrk]
      push_neg at hbrk
      exact buildLoop_isSome fetch p.size.toNat (0 + (p.result.length : Int)) p.size _ _
        (by omega) hbrk.1 (by omega)

/-- C3: for every upstream response function (each page carries a finite
record list by construction of the model), the pagination loop of
scrapeBuildResults terminates: some finite fuel completes the loop, and
any extra fuel leaves the result unchanged — the loop stops at the first
page where the cumulative record count reaches the latched total size or
which returns zero records, exactly the break condition of `buildLoop`. -/
theorem C3_pagination_terminates (fetch : Int → Int → Option ResultsPage)
    (s : ExporterState) :
    ∃ fuel : Nat, ∀ g : Nat,
      (scrapeBuildResults fetch fuel s).isSome = true ∧
      scrapeBuildResults fetch (fuel + g) s = scrapeBuildResults fetch fuel s := by
  refine ⟨enoughFuel fetch, fun g => ⟨scrapeBuildResults_enough fetch s, ?_⟩⟩
  exact buildLoop_fuel_add fetch (enoughFuel fetch) g 0 0 s []
    (scrapeBuildResults_enough fetch s)

/-- C2: with a first page reporting total size 150 and carrying 100
records and a second page carrying 50 records, scrapeBuildResults makes
exactly two fetch calls, at start-index 0 and 100, and the final state is
the fold of processRecord over all 150 records in order — each record
processed exactly once.  Per label pair, the success and failure counters
each grow by exactly the number of matching records, and the build-count
gauge ends at the build number of the last matching record. -/
theorem C2_pagination_150 (fetch : Int → Int → Option ResultsPage) (s : ExporterState)
    (A B : List BuildResult) (szB : Int) (k : Nat)
    (hA : A.length = 100) (hB : B.length = 50)
    (h0 : fetch 0 maxResult = some ⟨150, A⟩)
    (h1 : fetch 100 maxResult = some ⟨szB, B⟩) :
    scrapeBuildResults fetch (k + 2) s =
      some ((A ++ B).foldl processRecord s, true, [0, 100])
    ∧ (∀ L, lookupLV ((A ++ B).foldl processRecord s).buildSuccess L =
        addCnt (lookupLV s.buildSuccess L) (succCount (A ++ B) L))
    ∧ (∀ L, lookupLV ((A ++ B).foldl processRecord s).buildFailure L =
        addCnt (lookupLV s.buildFailure L) (failCount (A ++ B) L))
    ∧ (∀ L, lookupLV ((A ++ B).foldl processRecord s).buildCount L =
        (lastNum (A ++ B) L).elim (lookupLV s.buildCount L) (fun n => some (n : Rat))) := by
  refine ⟨?_, fun L => foldl_buildSuccess (A ++ B) L s,
    fun L => foldl_buildFailure (A ++ B) L s, fun L => foldl_buildCount (A ++ B) L s⟩
  unfold scrapeBuildResults
  show buildLoop fetch ((k + 1) + 1) 0 0 s [] = _
  rw [buildLoop, h0]
  simp only [if_true]
  rw [if_neg (by rw [hA]; norm_num)]
  have hci : (0 : Int) + ((A.length : Nat) : Int) = 100 := by rw [hA]; norm_num
  rw [hci, buildLoop, h1]
  simp only
  rw [if_neg (by norm_num : ¬ (150 : Int) = 0)]
  rw [if_pos (by rw [hB]; norm_num)]
  rw [← List.foldl_append]
  rfl

/-- C9: within one scrapeBuildResults call the pagination target is
latched from the first page and never updated: two upstreams agreeing on
the first page and on the record lists of every later page (their size
fields may differ arbitrarily) produce identical results. -/
theorem C9_total_size_latched (fetch fetch' : Int → Int → Option ResultsPage)
    (fuel : Nat) (s : ExporterState)
    (h0 : fetch 0 maxResult = fetch' 0 maxResult)
    (hrest : ∀ i, i ≠ 0 → (fetch i maxResult).map ResultsPage.result
                        = (fetch' i maxResult).map ResultsPage.result) :
    scrapeBuildResults fetch fuel s = scrapeBuildResults fetch' fuel s := by
  unfold scrapeBuildResults
  cases fuel with
  | zero => rfl
  | succ f =>
    rw [buildLoop, buildLoop, h0]
    cases hf' : fetch' 0 maxResult with
    | none => rfl
    | some page =>
      simp only [if_true]
      by_cases hbrk : page.size ≤ 0 + (page.result.length : Int) ∨ page.result.length = 0
      · rw [if_pos hbrk, if_pos hbrk]
      · rw [if_neg hbrk, if_neg hbrk]
        push_neg at hbrk
        exact buildLoop_size_irrelevant fetch fetch' hrest f _ _ _ _ (by omega) (by omega)

/-- C1 (amended): any sub-step failure aborts the remaining sub-steps
(the result is independent of the responses the later steps would have
consumed), increments the scrape-failure counter by exactly one, makes
Collect return normally with an up sample of 0, and every gauge and
counter not written during the scrape BEFORE THE POINT OF FAILURE keeps
its pre-scrape value.  (The original claim said "not written before the
failing step": that fails when scrapeBuildResults dies mid-pagination,
because build counters already updated by earlier pages of the failing
step keep those updates — see the counterexample.)  Case 1: scrapeAgents
fails, nothing but the failure counter changes.  Case 2: scrapeQueue
fails, the queue- and build-related state is exactly the pre-scrape one.
Case 3: scrapeBuildResults fails, the agent/queue fields hold the values
steps 1–2 wrote, and the failure counter increments by exactly one. -/
theorem C1_scrape_failure_policy (up : Upstream) (fuel : Nat) (s : ExporterState) :
    (up.agentsResp = none →
      (Collect up fuel s =
        some (outputOf 0 { s with failures := s.failures + 1 },
          { s with failures := s.failures + 1 }))
      ∧ ∀ q r, Collect { up with queueResp := q, resultResp := r } fuel s
          = Collect up fuel s)
    ∧ (∀ ags, up.agentsResp = some ags → up.queueResp = none →
      (Collect up fuel s =
        some (outputOf 0 { (scrapeAgents (some ags) s).1 with
            failures := (scrapeAgents (some ags) s).1.failures + 1 },
          { (scrapeAgents (some ags) s).1 with
            failures := (scrapeAgents (some ags) s).1.failures + 1 }))
      ∧ (scrapeAgents (some ags) s).1.failures = s.failures
      ∧ (scrapeAgents (some ags) s).1.queue = s.queue
      ∧ (scrapeAgents (some ags) s).1.queueChange = s.queueChange
      ∧ (scrapeAgents (some ags) s).1.previousQueueSize = s.previousQueueSize
      ∧ (scrapeAgents (some ags) s).1.buildSuccess = s.buildSuccess
      ∧ (scrapeAgents (some ags) s).1.buildFailure = s.buildFailure
      ∧ (scrapeAgents (some ags) s).1.buildCount = s.buildCount
      ∧ ∀ r, Collect { up with resultResp := r } fuel s = Collect up fuel s)
    ∧ (∀ ags sz s3 tr, up.agentsResp = some ags → up.queueResp = some sz →
      scrapeBuildResults up.resultResp fuel
          ((scrapeQueue (some sz) (scrapeAgents (some ags) s).1).1) = some (s3, false, tr) →
      (Collect up fuel s =
        some (outputOf 0 { s3 with failures := s3.failures + 1 },
          { s3 with failures := s3.failures + 1 }))
      ∧ s3.failures = s.failures
      ∧ s3.agents = (scrapeAgents (some ags) s).1.agents
      ∧ s3.utilization = (scrapeAgents (some ags) s).1.utilization
      ∧ s3.queue = (sz : Rat)
      ∧ s3.queueChange = ((sz - s.previousQueueSize : Int) : Rat)
      ∧ s3.previousQueueSize = sz) := by
  refine ⟨?_, ?_, ?_⟩
  · intro h
    constructor
    · simp [Collect, scrapeMetrics, h, scrapeAgents]
    · intro q r
      simp [Collect, scrapeMetrics, h, scrapeAgents]
  · intro ags h hq
    have h2 := scrapeAgents_some_snd ags s
    have hfr := scrapeAgents_frame ags s
    refine ⟨?_, hfr.1, hfr.2.1, hfr.2.2.1, hfr.2.2.2.1, hfr.2.2.2.2.1,
      hfr.2.2.2.2.2.1, hfr.2.2.2.2.2.2, ?_⟩
    · simp [Collect, scrapeMetrics, h, hq, h2, scrapeQueue]
    · intro r
      simp [Collect, scrapeMetrics, h, hq, h2, scrapeQueue]
  · intro ags sz s3 tr h hq hb
    have h2 := scrapeAgents_some_snd ags s
    have hfrA := scrapeAgents_frame ags s
    have hfrB := buildLoop_frame up.resultResp fuel 0 0
      ((scrapeQueue (some sz) (scrapeAgents (some ags) s).1).1) [] s3 false tr hb
    refine ⟨?_, ?_, hfrB.2.1, hfrB.2.2.2.1, hfrB.2.2.1, ?_, hfrB.2.2.2.2.2⟩
    · simp [Collect, scrapeMetrics, h, hq, h2, hb,
        (show ∀ t : ExporterState, (scrapeQueue (some sz) t).2 = true from fun t => rfl)]
    · exact hfrB.1.trans hfrA.1
    · rw [hfrB.2.2.2.2.1]
      show ((sz - (scrapeAgents (some ags) s).1.previousQueueSize : Int) : Rat) = _
      rw [hfrA.2.2.2.1]

/-- Upstream of the C1 counterexample: agents and queue succeed, the
build-result endpoint serves a first page reporting total size 2 with one
successful record, then fails on the second page. -/
def cexFetch : Int → Int → Option ResultsPage := fun i _ =>
  if i = 0 then some ⟨2, [⟨"P - 1", 7, "Successful"⟩]⟩ else none

/-- The upstream of the C1 counterexample. -/
def cexUp : Upstream :=
  { agentsResp := some [], queueResp := some 0, resultResp := cexFetch }

/-- Counterexample to C1 as stated: the scrape fails in step 3 (the fetch
of the second page), so the buildSuccess counter was NOT written before
the failing step (steps 1 and 2 never write it) and by the claim ought to
keep its pre-scrape value `[]`; the code leaves it at the value written by
the already-processed first page of the failing step.  The remaining
conjuncts of the claim hold: up sample 0, failure counter +1. -/
theorem C1_counterexample :
    (Collect cexUp 3 initialState).map (fun p => p.2.buildSuccess)
      = some [(["P", "1"], 1)]
    ∧ (Collect cexUp 3 initialState).map (fun p => p.1.up) = some 0
    ∧ (Collect cexUp 3 initialState).map (fun p => p.2.failures) = some 1
    ∧ initialState.buildSuccess = []
    ∧ ¬ [((["P", "1"] : Labels), (1 : Rat))] = ([] : List (Labels × Rat)) := by
  refine ⟨by decide, by decide, by decide, rfl, by decide⟩

/-- Witness for C1 (amended) at a concrete failing-agents upstream. -/
theorem C1_scrape_failure_policy_witness :
    Collect { agentsResp := none, queueResp := none, resultResp := fun _ _ => none }
        1 initialState =
      some (outputOf 0 { initialState with failures := 1 },
        { initialState with failures := 1 }) := by
  exact ((C1_scrape_failure_policy
    { agentsResp := none, queueResp := none, resultResp := fun _ _ => none }
    1 initialState).1 rfl).1

/-- First page of the C2 witness: 100 successful records with distinct
plan names. -/
def w2A : List BuildResult :=
  (List.range 100).map (fun i : Nat => ⟨toString i, (i : Int), "Successful"⟩)

/-- Second page of the C2 witness: 50 failed records with distinct plan
names. -/
def w2B : List BuildResult :=
  (List.range 50).map (fun i : Nat => ⟨toString (100 + i), ((100 + i : Nat) : Int), "Failed"⟩)

/-- The C2 witness upstream: total size 150, pages of 100 and 50 records. -/
def w2Fetch : Int → Int → Option ResultsPage := fun i _ =>
  if i = 0 then some ⟨150, w2A⟩ else if i = 100 then some ⟨150, w2B⟩ else none

/-- Witness for C2: the concrete 150-record upstream is paginated in
exactly two calls (start-index 0 then 100) and every record is folded
once. -/
theorem C2_pagination_150_witness :
    scrapeBuildResults w2Fetch 2 initialState =
      some ((w2A ++ w2B).foldl processRecord initialState, true, [0, 100]) :=
  (C2_pagination_150 w2Fetch initialState w2A w2B 150 0
    (by unfold w2A; rw [List.length_map, List.length_range])
    (by unfold w2B; rw [List.length_map, List.length_range]) rfl rfl).1

/-- The C9 witness upstreams: identical first pages and record lists, but
a different size field on the second page. -/
def w9Fetch : Int → Int → Option ResultsPage := fun i _ =>
  if i = 0 then some ⟨2, [⟨"Q - 1", 3, "Successful"⟩]⟩
  else if i = 1 then some ⟨2, [⟨"Q - 2", 4, "Failed"⟩]⟩ else none

/-- Same as `w9Fetch` with an inconsistent size report on page two. -/
def w9FetchAlt : Int → Int → Option ResultsPage := fun i _ =>
  if i = 0 then some ⟨2, [⟨"Q - 1", 3, "Successful"⟩]⟩
  else if i = 1 then some ⟨999, [⟨"Q - 2", 4, "Failed"⟩]⟩ else none

/-- Witness for C9: the size field reported by the second page (2 versus
999) has no effect on the scrape result. -/
theorem C9_total_size_latched_witness :
    scrapeBuildResults w9Fetch 5 initialState
      = scrapeBuildResults w9FetchAlt 5 initialState := by
  apply C9_total_size_latched
  · rfl
  · intro i hi
    simp only [w9Fetch, w9FetchAlt]
    rw [if_neg hi, if_neg hi]
    by_cases h1 : i = 1
    · rw [if_pos h1, if_pos h1]
      rfl
    · rw [if_neg h1, if_neg h1]

end BambooExporter
